import Mathlib

/-!
Verification of the disk-backed caching and deferred-processing core of the
icloud-photo-album server (`src/index.js` and its later revision
`src/unnamed/part_000`).  Each section embeds one component of the source as
executable Lean definitions — file-backed caches become explicit state values,
`Date.now()` becomes a `now : Int` parameter, collaborator calls (iCloud fetch,
ffmpeg, whisper, OpenAI) become environment parameters recording their
outcomes — and proves the specified properties about them.
-/

/-! ## Album result cache (`getCachedData` / `setCachedData`, src/index.js 180-227)

One JSON file per token holding `{ data, timestamp, reloading }`; the file for a
given token is modelled as `Option (AlbumCacheFile α)`, the in-memory
`reloadingState` entry for the token as a `Bool` (absent = `false`). -/

/-- On-disk album cache record: `{ data, timestamp, reloading }` as written by
`setCachedData` (src/index.js 212-216). -/
structure AlbumCacheFile (α : Type) where
  data : α
  timestamp : Int
  reloading : Bool
deriving DecidableEq, Repr

/-- Result shape of `getCachedData`: `{ data, isStale, timestamp }`
(src/index.js 192-196). -/
structure CacheReadResult (α : Type) where
  data : α
  isStale : Bool
  timestamp : Int
deriving DecidableEq, Repr

/-- Function `getCachedData(token)` (src/index.js 180-204): missing or unreadable file →
`null`; otherwise the stored value is always returned together with a freshly
computed staleness flag `now - timestamp > CACHE_TTL`. -/
def getCachedData {α : Type} (store : Option (AlbumCacheFile α)) (now ttl : Int) :
    Option (CacheReadResult α) :=
  match store with
  | none => none
  | some c => some ⟨c.data, decide (now - c.timestamp > ttl), c.timestamp⟩

/-- Function `setCachedData(token, data, isReloading)` (src/index.js 206-223): writes
`{ data, timestamp: Date.now(), reloading }` where the stored `reloading` is
`isReloading || (existing record present ? reloadingState.get(token) || false : false)`,
and mirrors that value back into `reloadingState`.  Returns the written file
and the new in-memory flag. -/
def setCachedData {α : Type} (store : Option (AlbumCacheFile α)) (flag : Bool)
    (now : Int) (d : α) (isReloading : Bool) : AlbumCacheFile α × Bool :=
  let r := isReloading || (match store with | some _ => flag | none => false)
  (⟨d, now, r⟩, r)

/-! ## Secure reference mapping (`storeImageUrl` / `getImageUrl`, src/index.js 266-345)

Two JSON files per URL: a lookup record keyed by a 16-hex-digit truncation of
`sha256(url)` and a forward record keyed by the random `secureId`.  Both
directories are modelled as association lists (head shadows older entries,
matching overwrite-on-write). -/

/-- Lookup record `_lookup_<urlHash>.json`: `{ url, secureId, timestamp }`
(src/index.js 309-314). -/
structure LookupRecord where
  url : String
  secureId : String
  timestamp : Int
deriving DecidableEq, Repr

/-- Forward record `<secureId>.json`: `{ url, timestamp }` (src/index.js 302-306). -/
structure UrlMapping where
  url : String
  timestamp : Int
deriving DecidableEq, Repr

/-- The mappings cache directory: lookup records keyed by URL hash, forward
records keyed by secure id. -/
structure MappingStore where
  lookups : List (String × LookupRecord)
  mappings : List (String × UrlMapping)
deriving DecidableEq, Repr

/-- Read the first (most recent) record stored under a key. -/
def alistGet {β : Type} (k : String) (l : List (String × β)) : Option β :=
  (l.find? (fun p => p.1 = k)).map Prod.snd

/-- Write a record under a key (new write shadows any older one). -/
def alistPut {β : Type} (k : String) (v : β) (l : List (String × β)) :
    List (String × β) :=
  (k, v) :: l

/-- Function `storeImageUrl(originalUrl)` (src/index.js 272-320).  `H` is the
deterministic URL hash (sha256 truncated to 16 hex digits), `freshId` the value
`generateSecureId()` would mint on this call (a 32-hex-digit random string,
hence nonempty).  If a lookup record exists under `H url`, its `url` matches
verbatim, its `secureId` is truthy and the forward record still exists, the
existing id is returned; otherwise a new id is minted and both records are
(re)written. -/
def storeImageUrl (H : String → String) (freshId : String) (now : Int)
    (st : MappingStore) (url : String) : String × MappingStore :=
  let mint : String × MappingStore :=
    (freshId,
      ⟨alistPut (H url) ⟨url, freshId, now⟩ st.lookups,
       alistPut freshId ⟨url, now⟩ st.mappings⟩)
  match alistGet (H url) st.lookups with
  | some lk =>
    if lk.url = url ∧ lk.secureId ≠ "" then
      match alistGet lk.secureId st.mappings with
      | some _ => (lk.secureId, st)
      | none => mint
    else mint
  | none => mint

/-- Function `getImageUrl(secureId)` (src/index.js 323-345): reads the forward record;
if older than `IMAGE_URL_MAP_TTL` it is deleted (lazy expiry) and `null` is
returned.  Returns the resolved URL (if any) and the forward record's state
after the call. -/
def getImageUrl (m : Option UrlMapping) (now ttl : Int) :
    Option String × Option UrlMapping :=
  match m with
  | none => (none, none)
  | some r => if now - r.timestamp > ttl then (none, none) else (some r.url, some r)

/-! ## Theorems: C2 and C3 -/

/-- C2: writing the album cache record for a token and reading it back within
the TTL returns the same value with `isStale = false`; reading after the TTL
has elapsed (no intervening write) returns the same value with
`isStale = true`; and a present record is never treated as a miss — the read
always returns the stored value. -/
theorem c2_album_cache_roundtrip {α : Type} (store : Option (AlbumCacheFile α))
    (flag : Bool) (t now ttl : Int) (v : α) :
    (now - t ≤ ttl →
      getCachedData (some (setCachedData store flag t v false).1) now ttl =
        some ⟨v, false, t⟩) ∧
    (now - t > ttl →
      getCachedData (some (setCachedData store flag t v false).1) now ttl =
        some ⟨v, true, t⟩) ∧
    (∀ rec : AlbumCacheFile α, ∃ res,
      getCachedData (some rec) now ttl = some res ∧ res.data = rec.data) := by
  refine ⟨fun h => ?_, fun h => ?_, fun rec => ?_⟩
  · simp [getCachedData, setCachedData]
    omega
  · simp [getCachedData, setCachedData]
    omega
  · exact ⟨⟨rec.data, decide (now - rec.timestamp > ttl), rec.timestamp⟩, rfl, rfl⟩

/-- C2 witness: concrete round trip with `ttl = 10`, written at time `0`,
read fresh at time `5` and stale at time `20`. -/
theorem c2_album_cache_roundtrip_witness :
    getCachedData (some (setCachedData (none : Option (AlbumCacheFile Nat)) false 0 42 false).1) 5 10 =
      some ⟨42, false, 0⟩ ∧
    getCachedData (some (setCachedData (none : Option (AlbumCacheFile Nat)) false 0 42 false).1) 20 10 =
      some ⟨42, true, 0⟩ :=
  ⟨(c2_album_cache_roundtrip none false 0 5 10 42).1 (by decide),
   (c2_album_cache_roundtrip none false 0 20 10 42).2.1 (by decide)⟩

/-- C3: `storeImageUrl` called twice for the same URL (with both records left
on disk in between) returns the same secure id both times; and under a hash
collision — a lookup record stored under `H u` whose `url` differs from `u` —
the colliding entry's secure id is not returned (a fresh id is minted
instead). -/
theorem c3_storeImageUrl_idempotent (H : String → String) (f1 f2 : String)
    (n1 n2 : Int) (st : MappingStore) (url : String) (hf1 : f1 ≠ "") :
    ((storeImageUrl H f2 n2 (storeImageUrl H f1 n1 st url).2 url).1 =
      (storeImageUrl H f1 n1 st url).1) ∧
    (∀ lk : LookupRecord, alistGet (H url) st.lookups = some lk → lk.url ≠ url →
      (storeImageUrl H f1 n1 st url).1 = f1) := by
  constructor
  · unfold storeImageUrl
    cases hlk : alistGet (H url) st.lookups with
    | none =>
      simp only [hlk]
      simp [alistGet, alistPut, hf1]
    | some lk =>
      simp only [hlk]
      by_cases hc : lk.url = url ∧ lk.secureId ≠ ""
      · rw [if_pos hc]
        cases hm : alistGet lk.secureId st.mappings with
        | none =>
          simp only [hm]
          simp [alistGet, alistPut, hf1]
        | some m =>
          simp only [hm]
          simp only [hlk, if_pos hc, hm]
      · rw [if_neg hc]
        simp [alistGet, alistPut, hf1]
  · intro lk hlk hne
    unfold storeImageUrl
    simp only [hlk]
    rw [if_neg (by simp [hne])]

/-- C3 witness: concrete hash function and store; the second call returns the
id minted by the first, and a collision with a different stored URL yields the
fresh id rather than the colliding one. -/
theorem c3_storeImageUrl_idempotent_witness :
    ((storeImageUrl (fun _ => "h") ("id2") 1
        (storeImageUrl (fun _ => "h") ("id1") 0 ⟨[], []⟩ ("u")).2 ("u")).1 =
      (storeImageUrl (fun _ => "h") ("id1") 0 ⟨[], []⟩ ("u")).1) ∧
    (storeImageUrl (fun _ => "h") ("id1") 0
        ⟨[("h", ⟨"other", "collide", 0⟩)], [("collide", ⟨"other", 0⟩)]⟩ ("u")).1 = "id1" := by
  refine ⟨(c3_storeImageUrl_idempotent (fun _ => "h") ("id1") ("id2") 0 1 ⟨[], []⟩ ("u") (by decide)).1, ?_⟩
  exact (c3_storeImageUrl_idempotent (fun _ => "h") ("id1") ("id2") 0 1
    ⟨[("h", ⟨"other", "collide", 0⟩)], [("collide", ⟨"other", 0⟩)]⟩ ("u") (by decide)).2
    ⟨"other", "collide", 0⟩ rfl (by decide)

/-! ## Album route, cached-hit dispatch (`app.get('/api/album/:token')`, src/index.js 701-827)

The handler's behaviour on a cache hit depends on three booleans: whether the
record has the legacy already-rewritten URL shape (`hasRewrittenUrls`,
src/index.js 708-712), whether the record is stale, and the token's in-memory
`reloadingState` flag.  `albumCachedHit` reproduces the dispatch:

* legacy ∧ stale ∧ ¬flag (714-754): respond with the cached data
  (`reloading: true`) and spawn a background reload — the flag is NOT set;
* legacy otherwise (755-762): respond with the cached data, no reload;
* current ∧ stale ∧ ¬flag (766-815): `setReloading(token, true)`, respond with
  the stale data, spawn a background reload;
* current ∧ ¬stale (816-826): respond with the cached data, no reload;
* current ∧ stale ∧ flag: neither branch matches, so control falls through to
  the cache-miss path (829-864) which synchronously awaits `getImages`. -/

/-- What the album route sends for a cached token: the cached JSON (with its
`reloading` field) or the result of the fall-through synchronous fetch. -/
inductive AlbumResponse where
  | cachedJson (reloadingField : Bool) : AlbumResponse
  | syncFetchedJson : AlbumResponse
deriving DecidableEq, Repr

/-- Outcome of one album read on a cache hit: response sent, whether the
upstream album fetch was awaited before responding, whether a background
reload was spawned, and the token's `reloadingState` flag afterwards. -/
structure AlbumReadResult where
  response : AlbumResponse
  awaitedUpstream : Bool
  spawnedRefresh : Bool
  flagAfter : Bool
deriving DecidableEq, Repr

/-- One execution of the `/api/album/:token` handler on a cache hit
(src/index.js 703-827), as a function of the record shape, its staleness and
the token's reloading flag.  In the fall-through case the synchronous fetch
ends with `setCachedData(cacheKey, data, false)` (834), which recomputes the
flag as `false || reloadingState.get(token)` = the old flag. -/
def albumCachedHit (legacy isStale flag : Bool) : AlbumReadResult :=
  if legacy then
    if isStale ∧ ¬flag then ⟨.cachedJson true, false, true, flag⟩
    else ⟨.cachedJson false, false, false, flag⟩
  else
    if isStale ∧ ¬flag then ⟨.cachedJson true, false, true, true⟩
    else if ¬isStale then ⟨.cachedJson false, false, false, flag⟩
    else ⟨.syncFetchedJson, true, false, flag⟩

/-! ## Video processing queue (`processVideoQueue` / `queueVideoProcessing`, src/unnamed/part_000 1431-1465)

`VIDEO_PROCESSING_QUEUE` is a FIFO array, `ACTIVE_VIDEO_PROCESSES` a counter
bounded by `MAX_CONCURRENT_VIDEO_PROCESSES` (default 1).  `runningQueued`
and `runningDirect` are ghost lists tracking which `processVideoAugmentation`
executions are currently running: those started by the queue worker and those
started by direct calls that bypass the queue (the album routes at
src/index.js 732/793/843 and `refreshTokenInBackground` at
src/unnamed/part_000 1334 call `processVideoAugmentation` directly). -/

/-- State of the video-processing queue plus ghost tracking of running jobs. -/
structure VidQueueState where
  queue : List Nat
  active : Nat
  runningQueued : List Nat
  runningDirect : List Nat
deriving DecidableEq, Repr

/-- Function `processVideoQueue()` (src/unnamed/part_000 1439-1457, entry guard and
shift): returns unless `ACTIVE_VIDEO_PROCESSES < MAX` and the queue is
nonempty; otherwise shifts the front job, increments the counter and starts
the job. -/
def processVideoQueue (limit : Nat) (st : VidQueueState) : VidQueueState :=
  if limit ≤ st.active ∨ st.queue = [] then st
  else
    match st.queue with
    | [] => st
    | j :: rest => ⟨rest, st.active + 1, st.runningQueued ++ [j], st.runningDirect⟩

/-- Function `queueVideoProcessing(...)` (src/unnamed/part_000 1460-1465): push the job
onto the queue, then call `processVideoQueue()`. -/
def queueVideoProcessing (limit : Nat) (st : VidQueueState) (j : Nat) : VidQueueState :=
  processVideoQueue limit ⟨st.queue ++ [j], st.active, st.runningQueued, st.runningDirect⟩

/-- The `finally` block of a queue-started job (src/unnamed/part_000
1452-1456): decrement the counter and call `processVideoQueue()` again. -/
def finishQueuedVideo (limit : Nat) (st : VidQueueState) (j : Nat) : VidQueueState :=
  if j ∈ st.runningQueued then
    processVideoQueue limit
      ⟨st.queue, st.active - 1, st.runningQueued.erase j, st.runningDirect⟩
  else st

/-- A direct `processVideoAugmentation(...)` call that bypasses the queue
(src/unnamed/part_000 1334, src/index.js 732/793/843): the job starts running
without touching the queue or the counter. -/
def startDirectVideo (st : VidQueueState) (j : Nat) : VidQueueState :=
  ⟨st.queue, st.active, st.runningQueued, st.runningDirect ++ [j]⟩

/-- Completion of a direct (queue-bypassing) job. -/
def finishDirectVideo (st : VidQueueState) (j : Nat) : VidQueueState :=
  ⟨st.queue, st.active, st.runningQueued, st.runningDirect.erase j⟩

/-- Events that drive the queue state. -/
inductive VidEvent where
  | enq (j : Nat)
  | fin (j : Nat)
  | direct (j : Nat)
  | finDirect (j : Nat)
deriving DecidableEq, Repr

/-- Apply one event. -/
def vidStep (limit : Nat) (st : VidQueueState) : VidEvent → VidQueueState
  | .enq j => queueVideoProcessing limit st j
  | .fin j => finishQueuedVideo limit st j
  | .direct j => startDirectVideo st j
  | .finDirect j => finishDirectVideo st j

/-- Run a sequence of events from the initial (empty, idle) state. -/
def vidRun (limit : Nat) (es : List VidEvent) : VidQueueState :=
  es.foldl (vidStep limit) ⟨[], 0, [], []⟩

/-- Number of `processVideoAugmentation` executions currently running,
process-wide (queue-started plus direct). -/
def runningJobs (st : VidQueueState) : Nat :=
  st.runningQueued.length + st.runningDirect.length

/-- Invariant of the queue discipline: the counter counts exactly the
queue-started running jobs, never exceeds the limit, and the worker is
work-conserving (a nonempty queue means the limit is saturated). -/
def VidInv (limit : Nat) (st : VidQueueState) : Prop :=
  st.runningQueued.length = st.active ∧ st.active ≤ limit ∧
    (st.queue ≠ [] → st.active = limit)

/-! ## Theorems: C1 and C7 -/

/-- C1 (code_bug evidence): evaluation of the album route on its failing
inputs.  Legacy shape: with the reloading flag initially clear, a first stale
read spawns a background reload but leaves the flag clear (the branch at
src/index.js 714-754 never calls `setReloading(token, true)`), so a second
stale read arriving before the reload completes spawns a second concurrent
reload.  Current shape: the first stale read sets the flag and spawns one
reload, but a second stale read (flag now set) matches neither
`isStale && !reloading` nor `!isStale` and falls through to the cache-miss
path, synchronously awaiting the upstream album fetch instead of returning
the stale value immediately. -/
theorem c1_stale_read_dedup_code_eval :
    ((albumCachedHit true true false).spawnedRefresh = true ∧
      (albumCachedHit true true
        (albumCachedHit true true false).flagAfter).spawnedRefresh = true) ∧
    ((albumCachedHit false true false).spawnedRefresh = true ∧
      (albumCachedHit false true false).awaitedUpstream = false ∧
      (albumCachedHit false true
        (albumCachedHit false true false).flagAfter).response = .syncFetchedJson ∧
      (albumCachedHit false true
        (albumCachedHit false true false).flagAfter).awaitedUpstream = true) := by
  decide

/-- C7 counterexample: with the default limit of one concurrent job, a job
entering through the queue and a simultaneous direct
`processVideoAugmentation` call (as issued by `refreshTokenInBackground`)
leave two augmentation jobs running at once — the process-wide bound claimed
does not hold. -/
theorem c7_concurrency_counterexample :
    runningJobs (vidRun 1 [VidEvent.enq 0, VidEvent.direct 1]) = 2 ∧
      ¬ runningJobs (vidRun 1 [VidEvent.enq 0, VidEvent.direct 1]) ≤ 1 := by
  decide


/-- Enqueuing preserves the queue invariant. -/
theorem queueVideoProcessing_inv (limit : Nat) (st : VidQueueState) (j : Nat)
    (h : VidInv limit st) : VidInv limit (queueVideoProcessing limit st j) := by
  obtain ⟨q, a, rq, rd⟩ := st
  obtain ⟨h1, h2, h3⟩ := h
  simp only at h1 h2 h3
  unfold queueVideoProcessing processVideoQueue
  cases hq : q with
  | nil =>
    subst hq
    by_cases hlt : limit ≤ a
    · rw [if_pos (Or.inl hlt)]
      exact ⟨h1, h2, fun _ => le_antisymm h2 hlt⟩
    · rw [if_neg (by simp [hlt])]
      simp only [List.nil_append]
      refine ⟨?_, ?_, ?_⟩ <;> dsimp only
      · simp [h1]
      · omega
      · intro hne
        exact absurd rfl hne
  | cons k rest =>
    have hsat : a = limit := h3 (by simp [hq])
    rw [if_pos (Or.inl (le_of_eq hsat.symm))]
    exact ⟨h1, h2, fun _ => hsat⟩

/-- A queued job finishing (and the worker pulling again) preserves the queue
invariant. -/
theorem finishQueuedVideo_inv (limit : Nat) (st : VidQueueState) (j : Nat)
    (h : VidInv limit st) : VidInv limit (finishQueuedVideo limit st j) := by
  obtain ⟨q, a, rq, rd⟩ := st
  obtain ⟨h1, h2, h3⟩ := h
  simp only at h1 h2 h3
  unfold finishQueuedVideo processVideoQueue
  by_cases hj : j ∈ rq
  · rw [if_pos (by simpa using hj)]
    have hlen : (rq.erase j).length = a - 1 := by
      rw [List.length_erase_of_mem hj, h1]
    have hpos : 1 ≤ a := by
      rw [← h1]
      exact List.length_pos.mpr (List.ne_nil_of_mem hj)
    cases hq : q with
    | nil =>
      subst hq
      rw [if_pos (Or.inr rfl)]
      refine ⟨?_, ?_, ?_⟩ <;> dsimp only
      · exact hlen
      · omega
      · intro hne
        exact absurd rfl hne
    | cons k rest =>
      subst hq
      have hsat : a = limit := h3 (by simp)
      rw [if_neg (by simp; omega)]
      refine ⟨?_, ?_, ?_⟩ <;> dsimp only
      · simp only [List.length_append, hlen, List.length_singleton]
      · omega
      · intro _
        omega
  · rw [if_neg (by simpa using hj)]
    exact ⟨h1, h2, h3⟩

/-- Every event preserves the queue invariant. -/
theorem vidStep_inv (limit : Nat) (st : VidQueueState) (e : VidEvent)
    (h : VidInv limit st) : VidInv limit (vidStep limit st e) := by
  cases e with
  | enq j => exact queueVideoProcessing_inv limit st j h
  | fin j => exact finishQueuedVideo_inv limit st j h
  | direct j =>
    obtain ⟨h1, h2, h3⟩ := h
    exact ⟨h1, h2, h3⟩
  | finDirect j =>
    obtain ⟨h1, h2, h3⟩ := h
    exact ⟨h1, h2, h3⟩

/-- The invariant holds along every event trace from the initial state. -/
theorem vidRun_inv (limit : Nat) (es : List VidEvent) : VidInv limit (vidRun limit es) := by
  have base : VidInv limit ⟨[], 0, [], []⟩ :=
    ⟨rfl, Nat.zero_le _, fun hne => absurd rfl hne⟩
  unfold vidRun
  generalize (⟨[], 0, [], []⟩ : VidQueueState) = st at base ⊢
  induction es generalizing st with
  | nil => exact base
  | cons e rest ih => exact ih _ (vidStep_inv limit st e base)

/-- C7 (amended): along every event trace, at most `limit` queue-started
augmentation jobs run concurrently (the bound governs jobs submitted through
`queueVideoProcessing`; direct `processVideoAugmentation` calls bypass it);
the worker starts queued jobs in FIFO order (it always shifts the queue
head); and when a queued job finishes while the queue is nonempty, the worker
immediately pulls the next job — the number of running queued jobs is
unchanged and the queue shrinks by one, so the queue drains without external
poking. -/
theorem c7_queue_bounded_fifo_drain (limit : Nat) :
    (∀ es : List VidEvent, (vidRun limit es).runningQueued.length ≤ limit) ∧
    (∀ (st : VidQueueState) (j : Nat) (rest : List Nat),
      st.queue = j :: rest → st.active < limit →
      processVideoQueue limit st =
        ⟨rest, st.active + 1, st.runningQueued ++ [j], st.runningDirect⟩) ∧
    (∀ (st : VidQueueState) (j : Nat), VidInv limit st → st.queue ≠ [] →
      j ∈ st.runningQueued →
      (finishQueuedVideo limit st j).runningQueued.length = st.runningQueued.length ∧
      (finishQueuedVideo limit st j).queue.length + 1 = st.queue.length) := by
  refine ⟨fun es => ?_, fun st j rest hq hlt => ?_, fun st j hinv hq hj => ?_⟩
  · obtain ⟨h1, h2, _⟩ := vidRun_inv limit es
    omega
  · obtain ⟨q, a, rq, rd⟩ := st
    simp only at hq hlt
    subst hq
    unfold processVideoQueue
    rw [if_neg (by simp; omega)]
  · obtain ⟨q, a, rq, rd⟩ := st
    obtain ⟨h1, h2, h3⟩ := hinv
    simp only at h1 h2 h3 hq hj
    have hsat : a = limit := h3 hq
    have hpos : 1 ≤ a := by
      rw [← h1]
      exact List.length_pos.mpr (List.ne_nil_of_mem hj)
    have hlen : (rq.erase j).length = a - 1 := by
      rw [List.length_erase_of_mem hj, h1]
    unfold finishQueuedVideo processVideoQueue
    rw [if_pos (by simpa using hj)]
    cases hqe : q with
    | nil => exact absurd hqe hq
    | cons k rest =>
      rw [if_neg (by simp; omega)]
      constructor <;> dsimp only
      · simp only [List.length_append, hlen, List.length_singleton]
        omega
      · simp

/-- C7 witness: with the default limit 1, a burst of two enqueues leaves one
running job; the worker pulls the queue head; and a finish with a waiting job
immediately starts it. -/
theorem c7_queue_bounded_fifo_drain_witness :
    (vidRun 1 [VidEvent.enq 0, VidEvent.enq 1]).runningQueued.length ≤ 1 ∧
    processVideoQueue 1 ⟨[5], 0, [], []⟩ = ⟨[], 1, [5], []⟩ ∧
    (finishQueuedVideo 1 ⟨[7], 1, [3], []⟩ 3).runningQueued.length = 1 :=
  ⟨(c7_queue_bounded_fifo_drain 1).1 [VidEvent.enq 0, VidEvent.enq 1],
   (c7_queue_bounded_fifo_drain 1).2.1 ⟨[5], 0, [], []⟩ 5 [] rfl (by decide),
   by
    have h := ((c7_queue_bounded_fifo_drain 1).2.2 ⟨[7], 1, [3], []⟩ 3
      ⟨rfl, by decide, fun _ => rfl⟩ (by decide) (by decide)).1
    simpa using h⟩

/-! ## Image derivative cache (`stripExifLocation` and `app.get('/api/image/:secureId.jpg')`, src/index.js 378-568)

One blob file per secure id with its mtime as freshness/ETag source.  The
upstream fetch and the sharp transform are collaborators; their outcomes are
passed as parameters (`none` models a thrown error / failed response). -/

/-- On-disk image derivative: bytes plus filesystem mtime. -/
structure DerivFile where
  mtime : Int
  bytes : List Nat
deriving DecidableEq, Repr

/-- Response of the image route. -/
inductive ImgResponse where
  | notModified (etag : String) : ImgResponse
  | ok (bytes : List Nat) : ImgResponse
  | notFound : ImgResponse
  | serverError : ImgResponse
deriving DecidableEq, Repr

/-- The `ETag` computed by the route: `"<secureId>-<mtimeMs>"` in quotes
(src/index.js 461). -/
def imageEtag (secureId : String) (mtime : Int) : String :=
  "\"" ++ secureId ++ "-" ++ toString mtime ++ "\""

/-- Function `stripExifLocation(imageUrl)` (src/index.js 378-437): fetch the upstream
bytes and transform them (resize + re-encode + EXIF strip, the sharp
collaborator); on any failure, fall back to re-fetching and returning the
*original* bytes; only when that fetch also fails is an error thrown.
`fetch1`/`fetch2` are the outcomes of the two fetch calls, `transform` the
sharp pipeline (`none` = processing error). -/
def stripExifLocation (fetch1 : Option (List Nat))
    (transform : List Nat → Option (List Nat)) (fetch2 : Option (List Nat)) :
    Option (List Nat) :=
  match fetch1 with
  | some b =>
    match transform b with
    | some p => some p
    | none => fetch2
  | none => fetch2

/-- Result of one request to the image route: response sent, derivative file
state afterwards, forward mapping state afterwards. -/
structure ImageServeResult where
  response : ImgResponse
  deriv : Option DerivFile
  mapping : Option UrlMapping
deriving DecidableEq, Repr

/-- The `/api/image/:secureId.jpg` handler (src/index.js 440-568):
1. a fresh on-disk derivative is served directly (304 when `If-None-Match`
   equals its ETag, src/index.js 453-486);
2. otherwise the secure id is resolved via `getImageUrl`; if it does not
   resolve, an existing (orphaned) derivative is served anyway, else 404
   (src/index.js 494-518);
3. otherwise `stripExifLocation` runs; on failure an existing stale
   derivative is served, else the error propagates (500); on success the
   result is persisted as the new derivative and served
   (src/index.js 520-560). -/
def serveImage (secureId : String) (deriv : Option DerivFile)
    (mapping : Option UrlMapping) (now cacheTtl mapTtl : Int)
    (inm : Option String) (fetch1 : Option (List Nat))
    (transform : List Nat → Option (List Nat)) (fetch2 : Option (List Nat)) :
    ImageServeResult :=
  let lookupPhase : ImageServeResult :=
    let rm := getImageUrl mapping now mapTtl
    match rm.1 with
    | none =>
      match deriv with
      | some f => ⟨.ok f.bytes, deriv, rm.2⟩
      | none => ⟨.notFound, deriv, rm.2⟩
    | some _url =>
      match stripExifLocation fetch1 transform fetch2 with
      | none =>
        match deriv with
        | some f => ⟨.ok f.bytes, deriv, rm.2⟩
        | none => ⟨.serverError, deriv, rm.2⟩
      | some b => ⟨.ok b, some ⟨now, b⟩, rm.2⟩
  match deriv with
  | some f =>
    if now - f.mtime < cacheTtl then
      let etag := imageEtag secureId f.mtime
      if inm = some etag then ⟨.notModified etag, deriv, mapping⟩
      else ⟨.ok f.bytes, deriv, mapping⟩
    else lookupPhase
  | none => lookupPhase

/-! ## Theorems: C8 and C9 -/

/-- C8: the image route answers 404 exactly when the secure mapping does not
resolve AND no derivative file exists on disk; when the mapping is absent but
a (possibly expired) derivative exists, the orphaned bytes are served; and
when the mapping resolves but the upstream fetch/transform pipeline fails
while a derivative exists on disk, the (stale) derivative bytes are served
instead of an error.  (`inm = none` in the serving clauses: the client sent
no `If-None-Match` validator.) -/
theorem c8_image_serving_fallbacks (secureId : String) (deriv : Option DerivFile)
    (mapping : Option UrlMapping) (now cacheTtl mapTtl : Int) (inm : Option String)
    (fetch1 : Option (List Nat)) (transform : List Nat → Option (List Nat))
    (fetch2 : Option (List Nat)) :
    ((serveImage secureId deriv mapping now cacheTtl mapTtl inm fetch1 transform fetch2).response
        = .notFound ↔
      (getImageUrl mapping now mapTtl).1 = none ∧ deriv = none) ∧
    (∀ f : DerivFile, inm = none → (getImageUrl mapping now mapTtl).1 = none →
      deriv = some f →
      (serveImage secureId deriv mapping now cacheTtl mapTtl inm fetch1 transform fetch2).response
        = .ok f.bytes) ∧
    (∀ f : DerivFile, ∀ u : String, inm = none →
      (getImageUrl mapping now mapTtl).1 = some u →
      stripExifLocation fetch1 transform fetch2 = none → deriv = some f →
      (serveImage secureId deriv mapping now cacheTtl mapTtl inm fetch1 transform fetch2).response
        = .ok f.bytes) := by
  refine ⟨?_, fun f hinm hres hd => ?_, fun f u hinm hres hstrip hd => ?_⟩
  · cases deriv with
    | none =>
      cases hres : (getImageUrl mapping now mapTtl).1 with
      | none => simp [serveImage, hres]
      | some u =>
        cases hstrip : stripExifLocation fetch1 transform fetch2 with
        | none => simp [serveImage, hres, hstrip]
        | some b => simp [serveImage, hres, hstrip]
    | some f =>
      by_cases hfresh : now - f.mtime < cacheTtl
      · by_cases he : inm = some (imageEtag secureId f.mtime) <;>
          simp [serveImage, hfresh, he]
      · cases hres : (getImageUrl mapping now mapTtl).1 with
        | none => simp [serveImage, hfresh, hres]
        | some u =>
          cases hstrip : stripExifLocation fetch1 transform fetch2 with
          | none => simp [serveImage, hfresh, hres, hstrip]
          | some b => simp [serveImage, hfresh, hres, hstrip]
  · subst hd
    by_cases hfresh : now - f.mtime < cacheTtl
    · simp [serveImage, hfresh, hinm]
    · simp [serveImage, hfresh, hres]
  · subst hd
    by_cases hfresh : now - f.mtime < cacheTtl
    · simp [serveImage, hfresh, hinm]
    · simp [serveImage, hfresh, hres, hstrip]

/-- C8 witness: concrete instantiations of the three clauses — 404 on a fully
cold miss, orphaned-derivative serving, and stale fallback on fetch failure. -/
theorem c8_image_serving_fallbacks_witness :
    (serveImage ("s") none none 0 10 10 none none (fun _ => none) none).response
      = .notFound ∧
    (serveImage ("s") (some ⟨-20, [1, 2]⟩) none 0 10 10 none none (fun _ => none) none).response
      = .ok [1, 2] ∧
    (serveImage ("s") (some ⟨-20, [1, 2]⟩) (some ⟨"u", 0⟩) 0 10 10 none none
        (fun _ => none) none).response = .ok [1, 2] :=
  ⟨(c8_image_serving_fallbacks ("s") none none 0 10 10 none none (fun _ => none) none).1.mpr
      ⟨rfl, rfl⟩,
   (c8_image_serving_fallbacks ("s") (some ⟨-20, [1, 2]⟩) none 0 10 10 none none
      (fun _ => none) none).2.1 ⟨-20, [1, 2]⟩ rfl rfl rfl,
   (c8_image_serving_fallbacks ("s") (some ⟨-20, [1, 2]⟩) (some ⟨"u", 0⟩) 0 10 10 none none
      (fun _ => none) none).2.2 ⟨-20, [1, 2]⟩ ("u") rfl (by decide) rfl rfl⟩

/-- C9 counterexample: the claim "every persisted/served derivative is the
output of the transform operation" is false.  With a resolving mapping, no
existing derivative, a transform that fails on every input and a succeeding
fallback refetch, the route persists and serves the raw upstream bytes
`[9, 9]` — which the transform never produced (it returns `none` on them). -/
theorem c9_raw_bytes_persisted_counterexample :
    (serveImage ("s") none (some ⟨"u", 0⟩) 0 10 10 none (some [9, 9])
        (fun _ => none) (some [9, 9])).response = .ok [9, 9] ∧
    (serveImage ("s") none (some ⟨"u", 0⟩) 0 10 10 none (some [9, 9])
        (fun _ => none) (some [9, 9])).deriv = some ⟨0, [9, 9]⟩ ∧
    (fun (_ : List Nat) => (none : Option (List Nat))) [9, 9] = none := by
  refine ⟨rfl, rfl, rfl⟩

/-- C9 (amended): when the transform pipeline succeeds — the upstream fetch
returns bytes `b` and the transform collaborator maps them to `p` — every
derivative the route persists is exactly `p`, the transform output (bounded
dimensions, fixed quality, metadata stripped by the collaborator); the raw
bytes are persisted only through `stripExifLocation`'s explicit fallback when
the transform itself fails.  Formally: the final derivative state is either
unchanged or equal to the freshly persisted transform output. -/
theorem c9_transform_output_persisted (secureId : String) (deriv : Option DerivFile)
    (mapping : Option UrlMapping) (now cacheTtl mapTtl : Int) (inm : Option String)
    (b p : List Nat) (transform : List Nat → Option (List Nat)) (fetch2 : Option (List Nat))
    (hT : transform b = some p) :
    (serveImage secureId deriv mapping now cacheTtl mapTtl inm (some b) transform fetch2).deriv
        = deriv ∨
    (serveImage secureId deriv mapping now cacheTtl mapTtl inm (some b) transform fetch2).deriv
        = some ⟨now, p⟩ := by
  cases deriv with
  | none =>
    cases hres : (getImageUrl mapping now mapTtl).1 with
    | none => simp [serveImage, hres]
    | some u => simp [serveImage, hres, stripExifLocation, hT]
  | some f =>
    by_cases hfresh : now - f.mtime < cacheTtl
    · by_cases he : inm = some (imageEtag secureId f.mtime) <;>
        simp [serveImage, hfresh, he]
    · cases hres : (getImageUrl mapping now mapTtl).1 with
      | none => simp [serveImage, hfresh, hres]
      | some u => simp [serveImage, hfresh, hres, stripExifLocation, hT]

/-- C9 witness: with a succeeding transform `[9, 9] ↦ [1]`, the persisted
derivative is the transform output `[1]`. -/
theorem c9_transform_output_persisted_witness :
    (serveImage ("s") none (some ⟨"u", 0⟩) 0 10 10 none (some [9, 9])
        (fun _ => some [1]) none).deriv = none ∨
    (serveImage ("s") none (some ⟨"u", 0⟩) 0 10 10 none (some [9, 9])
        (fun _ => some [1]) none).deriv = some ⟨0, [1]⟩ :=
  c9_transform_output_persisted ("s") none (some ⟨"u", 0⟩) 0 10 10 none [9, 9] [1]
    (fun _ => some [1]) none rfl

/-! ## Transcript quality gate — string machinery (src/unnamed/part_000 1837-1889)

The gate operates on JavaScript strings with the regexes
`/\(.*music.*\)/gi`, `/\(.*sound.*\)/gi`, `/\(.*noise.*\)/gi`,
`/\(.*ambient.*\)/gi` (`.match` to count, `.replace(pattern, ' ')` to strip),
then `/[^\w\s]/g` and `/\s+/`.  Strings are modelled as `List Char`
(transcripts are ASCII, so JS UTF-16 lengths agree with char counts).

For a pattern `\(.*X.*\)` (with `X` a literal word containing neither `(`,
`)` nor a newline) JavaScript's leftmost, greedy matching gives the first
match the following shape: the start is the first `(` from which a full match
is possible; `.` does not match newlines, so the match is confined to the
text before the next newline; the first greedy `.*` puts the occurrence of
`X` as far right as possible and the second puts the closing `)` as far
right as possible, so the match ends at the *last* `)` of that
newline-delimited window — a full match from a given `(` exists exactly when
`X` occurs somewhere strictly between that `(` and the window's last `)`.
With `/g`, matching then resumes after the match end. -/

/-- JS whitespace class `\s` (ASCII part — transcripts contain no exotic
whitespace). -/
def jsWs (c : Char) : Bool :=
  c = ' ' ∨ c = '\t' ∨ c = '\n' ∨ c = '\r' ∨ c = '\x0b' ∨ c = '\x0c'

/-- Model of `String.prototype.trim()`. -/
def trimChars (s : List Char) : List Char :=
  ((s.dropWhile jsWs).reverse.dropWhile jsWs).reverse

/-- Contiguous-substring test (`x` occurs somewhere in `s`). -/
def hasSub (x : List Char) : List Char → Bool
  | [] => x = []
  | c :: rest => (c :: rest).take x.length = x || hasSub x rest

/-- Split a newline-free window at its last `)`: returns the part before it
and the part after it, or `none` if the window contains no `)`. -/
def splitAtLastRParen (w : List Char) : Option (List Char × List Char) :=
  match w.reverse.dropWhile (fun c => c ≠ ')') with
  | [] => none
  | _ :: revSeg =>
    some (revSeg.reverse, (w.reverse.takeWhile (fun c => c ≠ ')')).reverse)

/-- First match of `\(.*X.*\)` in `s` under JS semantics (see the section
comment): returns `(before, matched, after)`. -/
def findParenMatch (x : List Char) : List Char → Option (List Char × List Char × List Char)
  | [] => none
  | c :: rest =>
    let skip := (findParenMatch x rest).map
      (fun r => (c :: r.1, r.2.1, r.2.2))
    if c = '(' then
      let w := rest.takeWhile (fun ch => ch ≠ '\n')
      match splitAtLastRParen w with
      | some sa =>
        if hasSub x sa.1 then
          some ([], '(' :: sa.1 ++ [')'], sa.2 ++ rest.drop w.length)
        else skip
      | none => skip
    else skip

/-- Number of matches found by `s.match(/\(.*X.*\)/g)` (0 when `null`).
Fueled recursion: every match consumes at least three characters, so
`s.length` rounds suffice. -/
def countParenMatchesAux (x : List Char) : Nat → List Char → Nat
  | 0, _ => 0
  | fuel + 1, s =>
    match findParenMatch x s with
    | none => 0
    | some r => 1 + countParenMatchesAux x fuel r.2.2

/-- Model of `(s.match(pattern) || []).length` for `pattern = /\(.*X.*\)/g`. -/
def countParenMatches (x s : List Char) : Nat :=
  countParenMatchesAux x (s.length + 1) s

/-- Model of `s.replace(/\(.*X.*\)/g, ' ')`: every match replaced by a single space. -/
def replaceParenMatchesAux (x : List Char) : Nat → List Char → List Char
  | 0, s => s
  | fuel + 1, s =>
    match findParenMatch x s with
    | none => s
    | some r => r.1 ++ ' ' :: replaceParenMatchesAux x fuel r.2.2

/-- Global replacement of the pattern by `' '`. -/
def replaceParenMatches (x s : List Char) : List Char :=
  replaceParenMatchesAux x (s.length + 1) s

/-- The four marker keywords — `music`, `sound`, `noise`, `ambient`
(src/unnamed/part_000 1839-1844). -/
def musicMarkerKeywords : List (List Char) :=
  ["music".toList, "sound".toList, "noise".toList, "ambient".toList]

/-- Source expression `normalizedTranscript = transcription.toLowerCase().trim()`
(src/unnamed/part_000 1838). -/
def normalizedTranscript (t : List Char) : List Char :=
  trimChars (t.map Char.toLower)

/-- Count `musicMarkerCount` (src/unnamed/part_000 1847-1851): total number of
matches of the four patterns over the normalized transcript. -/
def musicMarkerCount (t : List Char) : Nat :=
  (musicMarkerKeywords.map
    (fun x => countParenMatches x (normalizedTranscript t))).sum

/-- String `contentWithoutMarkers` (src/unnamed/part_000 1854-1857): the normalized
transcript with each pattern's matches replaced by a space, trimmed after
each pattern. -/
def contentWithoutMarkers (t : List Char) : List Char :=
  musicMarkerKeywords.foldl
    (fun acc x => trimChars (replaceParenMatches x acc))
    (normalizedTranscript t)

/-- JS word class `\w` = `[A-Za-z0-9_]`. -/
def jsWordChar (c : Char) : Bool :=
  ('a' ≤ c ∧ c ≤ 'z') ∨ ('A' ≤ c ∧ c ≤ 'Z') ∨ ('0' ≤ c ∧ c ≤ '9') ∨ c = '_'

/-- Model of `.replace(/[^\w\s]/g, ' ')` applied to one character. -/
def punctToSpace (c : Char) : Char :=
  if jsWordChar c || jsWs c then c else ' '

/-- One step of splitting on whitespace runs (`.split(/\s+/)`), building the
chunk list right-to-left.  Empty chunks (JS produces them at the ends) are
irrelevant because the caller keeps only chunks of length `> 2`. -/
def wsChunkStep (c : Char) (acc : List (List Char)) : List (List Char) :=
  if jsWs c then [] :: acc
  else
    match acc with
    | [] => [[c]]
    | w :: rest => (c :: w) :: rest

/-- Maximal runs between whitespace (`.split(/\s+/)`, with empty chunks kept —
they are filtered out by the length test below). -/
def wsChunks (s : List Char) : List (List Char) :=
  s.foldr wsChunkStep [[]]

/-- Token list `meaningfulWords` (src/unnamed/part_000 1860-1863): strip punctuation,
split on whitespace, keep words longer than two characters. -/
def meaningfulWords (c : List Char) : List (List Char) :=
  (wsChunks (c.map punctToSpace)).filter (fun w => 2 < w.length)

/-- Count `meaningfulWordCount` for a transcript (src/unnamed/part_000 1867). -/
def meaningfulWordCount (t : List Char) : Nat :=
  (meaningfulWords (contentWithoutMarkers t)).length

/-- Ratio `markerPercentage = (musicMarkerCount * 20) / transcription.length`
(src/unnamed/part_000 1866), as an exact rational (the JS doubles involved
are nowhere near the representability boundary for the inputs at stake). -/
def markerPercentage (t : List Char) : ℚ :=
  (musicMarkerCount t * 20 : ℚ) / (t.length : ℚ)

/-- The quality-gate condition (src/unnamed/part_000 1871):
`markerPercentage > 0.7 || meaningfulWordCount < 15`. -/
def qualityGateSkips (t : List Char) : Bool :=
  markerPercentage t > 7 / 10 ∨ meaningfulWordCount t < 15

/-! ## Media augmentation pipeline (`processVideoAugmentation`, src/unnamed/part_000 1744-1958)

Collaborator outcomes (ffprobe, download+ffmpeg extraction, whisper, OpenAI)
are supplied in a `PipelineEnv`.  JavaScript errors are modelled by the
substring facts the code tests on `error.message` / `error.cause`. -/

/-- A JS error as seen by the pipeline's `catch` blocks: which of the tested
substrings its `message` contains, and whether `error.cause.code` is
`ETIMEDOUT`. -/
structure JsError where
  expired : Bool
  network : Bool
  sigsegv : Bool
  fetchFailed : Bool
  timeoutStr : Bool
  etimedout : Bool
  hasCause : Bool
  causeETimedout : Bool
deriving DecidableEq, Repr

/-- The error thrown at src/unnamed/part_000 1803: message
`VIDEO_URL_EXPIRED: Video URL has expired. Please refresh the album cache.`
(contains `VIDEO_URL_EXPIRED`, none of the other tested substrings, no
cause). -/
def expiredRethrowError : JsError :=
  ⟨true, false, false, false, false, false, false, false⟩

/-- The error thrown at src/unnamed/part_000 1809: message
`NETWORK_ERROR: ${extractError.message}` — contains `NETWORK_ERROR` plus
whatever tested substrings the original message had; a fresh `Error` has no
cause. -/
def networkRethrowError (e : JsError) : JsError :=
  ⟨e.expired, true, e.sigsegv, e.fetchFailed, e.timeoutStr, e.etimedout, false, false⟩

/-- The outer catch's transient test (src/unnamed/part_000 1942-1948):
`message` contains `VIDEO_URL_EXPIRED`, `NETWORK_ERROR`, `ETIMEDOUT`,
`fetch failed` or `timeout`. -/
def isTransientMsg (e : JsError) : Bool :=
  e.expired || e.network || e.etimedout || e.fetchFailed || e.timeoutStr

/-- Collaborators invoked by the pipeline, in invocation order. -/
inductive Collaborator where
  | probeDuration
  | extractAudio
  | transcribe
  | blogify
deriving DecidableEq, Repr

/-- The augmentation record persisted under `<albumToken>_<photoGuid>.json`:
either a success record or one of the permanent-skip records, with the
diagnostics each branch writes (src/unnamed/part_000 1763-1930).  The
`albumToken`/`photoGuid`/`processedAt` fields, identical in every record, are
omitted. -/
inductive AugRecord where
  | success (transcription blog : String) (timestamps : List Int) (points : List Nat)
  | skipTooShort (duration : Nat)
  | skipCrash
  | skipTranscriptionTooShort (transcriptionLength : Nat)
  | skipLowQuality (transcriptionLength meaningfulWordCnt musicMarkerCnt : Nat)
      (markerPct : ℚ)
  | skipInsufficient (transcriptionLength meaningfulWordCnt : Nat)
deriving DecidableEq, Repr

/-- The record's `skipped` field. -/
def augSkipped : AugRecord → Bool
  | .success _ _ _ _ => false
  | _ => true

/-- The record's `reason` field (the literal strings written by the source). -/
def augReason : AugRecord → Option String
  | .success _ _ _ _ => none
  | .skipTooShort _ => some ("too_short")
  | .skipCrash => some ("ffmpeg_crash")
  | .skipTranscriptionTooShort _ => some ("transcription_too_short")
  | .skipLowQuality _ _ _ _ => some ("low_quality_transcription")
  | .skipInsufficient _ _ => some ("insufficient_content")

/-- Function `getVideoDuration` (src/unnamed/part_000 1493-1530): `raw` is the
`parseFloat` of ffprobe's stdout (`none` when ffprobe is unavailable, fails,
or prints something non-numeric); non-positive durations are rejected and the
result is `Math.floor`ed. -/
def getVideoDuration (raw : Option ℚ) : Option Nat :=
  match raw with
  | none => none
  | some q => if q ≤ 0 then none else some (Int.toNat ⌊q⌋)

/-- Output of `transcribeAudio`: `{ transcription, timestamps, points }`. -/
structure TranscribeOut where
  transcription : String
  timestamps : List Int
  points : List Nat
deriving DecidableEq, Repr

/-- Outcome of `blogifyTranscription`: prose, the `INSUFFICIENT_CONTENT`
sentinel (thrown as an error and caught by name, src/unnamed/part_000
1732-1733, 1898), or another error. -/
inductive BlogifyOutcome where
  | ok (blog : String)
  | insufficient
  | fail (e : JsError)
deriving DecidableEq, Repr

/-- Collaborator outcomes for one pipeline run. -/
structure PipelineEnv where
  durationRaw : Option ℚ
  extract : Option JsError
  transcribe : Except JsError TranscribeOut
  blogify : BlogifyOutcome
deriving Repr

/-- State of the augmentation cache file for the `(albumToken, itemId)` key:
missing, present but unreadable (the initial read fails and processing
continues, src/unnamed/part_000 1749-1756), or present with a record. -/
inductive CacheFileState where
  | absent
  | corrupt
  | present (r : AugRecord)
deriving DecidableEq, Repr

/-- Result of one `processVideoAugmentation` call: the value returned /
error rethrown, the cache file afterwards, and which collaborators ran. -/
structure AugRun where
  result : Except JsError AugRecord
  cacheFile : CacheFileState
  calls : List Collaborator
deriving Repr

/-- The quality gate (src/unnamed/part_000 1837-1889): when
`markerPercentage > 0.7 || meaningfulWordCount < 15`, the
`low_quality_transcription` skip record with its diagnostics
(`transcriptionLength`, `meaningfulWordCount`, `musicMarkerCount`,
`markerPercentage` as a percentage). -/
def qualityGate (t : String) : Option AugRecord :=
  if qualityGateSkips t.toList then
    some (.skipLowQuality t.length (meaningfulWordCount t.toList)
      (musicMarkerCount t.toList) (markerPercentage t.toList * 100))
  else none

/-- The outer catch (src/unnamed/part_000 1938-1957): transient errors
(expired URL, network, timeout) delete any cache file for the key and
rethrow; other errors rethrow leaving the file as it was. -/
def augOuterCatch (e : JsError) (cf : CacheFileState) (calls : List Collaborator) : AugRun :=
  ⟨.error e, if isTransientMsg e then .absent else cf, calls⟩

/-- Steps 2-3 of the pipeline — transcription, length check, quality gate,
blogify (src/unnamed/part_000 1815-1936). -/
def processAfterExtraction (env : PipelineEnv) (cf : CacheFileState) : AugRun :=
  match env.transcribe with
  | .error e => augOuterCatch e cf [.probeDuration, .extractAudio, .transcribe]
  | .ok tr =>
    if tr.transcription.toList = [] ∨ (trimChars tr.transcription.toList).length < 50 then
      let r := AugRecord.skipTranscriptionTooShort tr.transcription.length
      ⟨.ok r, .present r, [.probeDuration, .extractAudio, .transcribe]⟩
    else
      match qualityGate tr.transcription with
      | some r => ⟨.ok r, .present r, [.probeDuration, .extractAudio, .transcribe]⟩
      | none =>
        match env.blogify with
        | .ok blog =>
          let r := AugRecord.success tr.transcription blog tr.timestamps tr.points
          ⟨.ok r, .present r, [.probeDuration, .extractAudio, .transcribe, .blogify]⟩
        | .insufficient =>
          let r := AugRecord.skipInsufficient tr.transcription.length
            (meaningfulWordCount tr.transcription.toList)
          ⟨.ok r, .present r, [.probeDuration, .extractAudio, .transcribe, .blogify]⟩
        | .fail e =>
          augOuterCatch e cf [.probeDuration, .extractAudio, .transcribe, .blogify]

/-- Step 1 of the pipeline — audio extraction with its error classification
(src/unnamed/part_000 1775-1813): a SIGSEGV message becomes a permanent
`ffmpeg_crash` skip; an expired-URL message is rethrown as
`VIDEO_URL_EXPIRED`; a caused network/timeout failure is rethrown as
`NETWORK_ERROR`; anything else is rethrown as-is. -/
def processAfterDurationGate (env : PipelineEnv) (cf : CacheFileState) : AugRun :=
  match env.extract with
  | some e =>
    if e.sigsegv then
      let r := AugRecord.skipCrash
      ⟨.ok r, .present r, [.probeDuration, .extractAudio]⟩
    else if e.expired then
      augOuterCatch expiredRethrowError cf [.probeDuration, .extractAudio]
    else if e.hasCause ∧ (e.causeETimedout ∨ e.fetchFailed ∨ e.timeoutStr) then
      augOuterCatch (networkRethrowError e) cf [.probeDuration, .extractAudio]
    else
      augOuterCatch e cf [.probeDuration, .extractAudio]
  | none => processAfterExtraction env cf

/-- Function `processVideoAugmentation(albumToken, photoGuid, videoUrl)`
(src/unnamed/part_000 1744-1958): cached-record short-circuit, then the
duration gate (`duration !== null && duration < 10` writes the `too_short`
skip and stops), then extraction, transcription, quality gate and blogify. -/
def processVideoAugmentation (env : PipelineEnv) (cf : CacheFileState) : AugRun :=
  match cf with
  | .present r => ⟨.ok r, cf, []⟩
  | _ =>
    match getVideoDuration env.durationRaw with
    | some d =>
      if d < 10 then
        let r := AugRecord.skipTooShort d
        ⟨.ok r, .present r, [.probeDuration]⟩
      else processAfterDurationGate env cf
    | none => processAfterDurationGate env cf

/-! ## Theorems: C5, C4, C6 -/

set_option maxRecDepth 100000

/-- A transcript that passes the 50-character length gate, composed of 35
`(background music)` markers (630 of its 696 characters, ≈ 90%) with 8 real
words interspersed between them. -/
def lowQualityTranscript : String :=
  "(background music) fox (background music) dog (background music) cat (background music) sun (background music) sky (background music) sea (background music) hat (background music) map (background music) (background music) (background music) (background music) (background music) (background music) (background music) (background music) (background music) (background music) (background music) (background music) (background music) (background music) (background music) (background music) (background music) (background music) (background music) (background music) (background music) (background music) (background music) (background music) (background music) (background music) (background music)"

/-- The same marker layout with 30 real words interspersed between the
markers (the example the claim asserts must NOT be skipped on quality
grounds). -/
def thirtyWordTranscript : String :=
  "(background music) fox (background music) dog (background music) cat (background music) sun (background music) sky (background music) sea (background music) hat (background music) map (background music) car (background music) bus (background music) oak (background music) elm (background music) fig (background music) ant (background music) bee (background music) owl (background music) cow (background music) hen (background music) pig (background music) rat (background music) bat (background music) fly (background music) eel (background music) jay (background music) koi (background music) yak (background music) emu (background music) ram (background music) doe (background music) fog (background music) (background music) (background music) (background music) (background music)"

/-- A transcript whose meaningful-word count is under 15 is skipped by the
gate (the second disjunct of the gate condition). -/
theorem qualityGateSkips_of_fewWords (t : List Char)
    (h : meaningfulWordCount t < 15) : qualityGateSkips t = true := by
  unfold qualityGateSkips
  rw [decide_eq_true_eq]
  exact Or.inr h

/-- C5 (code_bug evidence): evaluation of the quality gate at the claim's own
examples.  Because the patterns `/\(.*music.*\)/g` etc. are greedy, the single
match per pattern spans from the first marker's `(` to the last marker's `)`,
swallowing every word interspersed between markers: both transcripts yield
`musicMarkerCount = 1` and `meaningfulWordCount = 0`, so BOTH are skipped
with `reason = "low_quality_transcription"` — including the transcript with
30 interspersed real words, which the claim (and the source's own comment at
src/unnamed/part_000 1869-1870, "47 words ... should definitely pass")
says must not be skipped on quality grounds. -/
theorem c5_quality_gate_code_eval :
    musicMarkerCount lowQualityTranscript.toList = 1 ∧
    meaningfulWordCount lowQualityTranscript.toList = 0 ∧
    (qualityGate lowQualityTranscript).map augReason =
      some (some ("low_quality_transcription")) ∧
    musicMarkerCount thirtyWordTranscript.toList = 1 ∧
    meaningfulWordCount thirtyWordTranscript.toList = 0 ∧
    (qualityGate thirtyWordTranscript).map augReason =
      some (some ("low_quality_transcription")) := by
  have hA : meaningfulWordCount lowQualityTranscript.toList = 0 := rfl
  have hB : meaningfulWordCount thirtyWordTranscript.toList = 0 := rfl
  have hgA : qualityGateSkips lowQualityTranscript.toList = true :=
    qualityGateSkips_of_fewWords _ (by rw [hA]; decide)
  have hgB : qualityGateSkips thirtyWordTranscript.toList = true :=
    qualityGateSkips_of_fewWords _ (by rw [hB]; decide)
  refine ⟨rfl, hA, ?_, rfl, hB, ?_⟩
  · unfold qualityGate
    rw [hgA]
    rfl
  · unfold qualityGate
    rw [hgB]
    rfl

/-- A transient error makes the outer catch delete the cache file and
rethrow. -/
theorem augOuterCatch_transient (e : JsError) (cf : CacheFileState)
    (calls : List Collaborator) (h : isTransientMsg e = true) :
    augOuterCatch e cf calls = ⟨.error e, .absent, calls⟩ := by
  unfold augOuterCatch
  rw [h]
  simp

/-- Transcription onwards, the collaborator trace always starts with the
probe and the extraction. -/
theorem processAfterExtraction_calls (env : PipelineEnv) (cf : CacheFileState) :
    ∃ tail, (processAfterExtraction env cf).calls =
      .probeDuration :: .extractAudio :: tail := by
  unfold processAfterExtraction
  cases env.transcribe with
  | error e => exact ⟨_, rfl⟩
  | ok tr =>
    dsimp only
    by_cases hlen : tr.transcription.toList = [] ∨ (trimChars tr.transcription.toList).length < 50
    · rw [if_pos hlen]
      exact ⟨_, rfl⟩
    · rw [if_neg hlen]
      cases qualityGate tr.transcription with
      | some r => exact ⟨_, rfl⟩
      | none =>
        cases env.blogify with
        | ok b => exact ⟨_, rfl⟩
        | insufficient => exact ⟨_, rfl⟩
        | fail e => exact ⟨_, rfl⟩

/-- Past the duration gate, the collaborator trace always starts with the
probe. -/
theorem processAfterDurationGate_calls (env : PipelineEnv) (cf : CacheFileState) :
    ∃ tail, (processAfterDurationGate env cf).calls = .probeDuration :: tail := by
  unfold processAfterDurationGate
  cases env.extract with
  | some e =>
    dsimp only
    by_cases h1 : e.sigsegv = true
    · rw [if_pos h1]
      exact ⟨_, rfl⟩
    · rw [if_neg h1]
      by_cases h2 : e.expired = true
      · rw [if_pos h2]
        exact ⟨_, rfl⟩
      · rw [if_neg h2]
        by_cases h3 : e.hasCause = true ∧
          (e.causeETimedout = true ∨ e.fetchFailed = true ∨ e.timeoutStr = true)
        · rw [if_pos h3]
          exact ⟨_, rfl⟩
        · rw [if_neg h3]
          exact ⟨_, rfl⟩
  | none =>
    obtain ⟨t, ht⟩ := processAfterExtraction_calls env cf
    exact ⟨_, ht⟩

/-- On a key with no (readable) cached record, a `processVideoAugmentation`
call runs the pipeline from the start: its first collaborator call is the
duration probe. -/
theorem processVideoAugmentation_nonPresent_probes (env : PipelineEnv)
    (cf : CacheFileState) (hcf : cf = .absent ∨ cf = .corrupt) :
    (processVideoAugmentation env cf).calls.headD .blogify = .probeDuration := by
  have main : ∀ cf2 : CacheFileState, cf2 = .absent ∨ cf2 = .corrupt →
      (processVideoAugmentation env cf2).calls.headD .blogify = .probeDuration := by
    intro cf2 h2
    have hred : processVideoAugmentation env cf2 =
        (match getVideoDuration env.durationRaw with
          | some d =>
            if d < 10 then
              ⟨.ok (AugRecord.skipTooShort d), .present (AugRecord.skipTooShort d),
                [.probeDuration]⟩
            else processAfterDurationGate env cf2
          | none => processAfterDurationGate env cf2) := by
      rcases h2 with h | h <;> subst h <;> rfl
    rw [hred]
    cases hd : getVideoDuration env.durationRaw with
    | none =>
      dsimp only
      obtain ⟨t, ht⟩ := processAfterDurationGate_calls env cf2
      rw [ht]
      rfl
    | some d =>
      dsimp only
      by_cases hlt : d < 10
      · rw [if_pos hlt]
        rfl
      · rw [if_neg hlt]
        obtain ⟨t, ht⟩ := processAfterDurationGate_calls env cf2
        rw [ht]
        rfl

  exact main cf hcf

/-- C4: when the extraction step fails transiently — the message marks an
expired/unauthorized link, or a network/timeout failure (a `timeout` /
`fetch failed` / `ETIMEDOUT` message, or an `ETIMEDOUT` cause) — the pipeline
rethrows an error, any augmentation record for the key is removed from disk,
and a subsequent call for the key re-runs the pipeline from the start (its
first collaborator call is the duration probe, not a cached return). -/
theorem c4_transient_extraction_no_record (env : PipelineEnv) (cf : CacheFileState)
    (e : JsError) (hcf : cf = .absent ∨ cf = .corrupt)
    (hdur : ∀ d, getVideoDuration env.durationRaw = some d → 10 ≤ d)
    (hext : env.extract = some e) (hsig : e.sigsegv = false)
    (htrans : e.expired = true ∨ e.etimedout = true ∨ e.fetchFailed = true ∨
      e.timeoutStr = true ∨ (e.hasCause = true ∧ e.causeETimedout = true)) :
    (∃ e2, (processVideoAugmentation env cf).result = .error e2) ∧
    (processVideoAugmentation env cf).cacheFile = .absent ∧
    (∀ env2 : PipelineEnv,
      (processVideoAugmentation env2 (processVideoAugmentation env cf).cacheFile).calls.headD
        .blogify = .probeDuration) := by
  have key : (∃ e2, (processAfterDurationGate env cf).result = .error e2) ∧
      (processAfterDurationGate env cf).cacheFile = .absent := by
    unfold processAfterDurationGate
    rw [hext]
    dsimp only
    rw [if_neg (by simp [hsig])]
    by_cases hexp : e.expired = true
    · rw [if_pos hexp, augOuterCatch_transient expiredRethrowError cf _ (by decide)]
      exact ⟨⟨expiredRethrowError, rfl⟩, rfl⟩
    · rw [if_neg hexp]
      by_cases hnet : e.hasCause = true ∧
        (e.causeETimedout = true ∨ e.fetchFailed = true ∨ e.timeoutStr = true)
      · rw [if_pos hnet,
          augOuterCatch_transient _ _ _ (by simp [isTransientMsg, networkRethrowError])]
        exact ⟨⟨networkRethrowError e, rfl⟩, rfl⟩
      · have hone : e.etimedout = true ∨ e.fetchFailed = true ∨ e.timeoutStr = true := by
          rcases htrans with h | h | h | h | ⟨h1, h2⟩
          · exact absurd h hexp
          · exact Or.inl h
          · exact Or.inr (Or.inl h)
          · exact Or.inr (Or.inr h)
          · exact absurd ⟨h1, Or.inl h2⟩ hnet
        have htm : isTransientMsg e = true := by
          unfold isTransientMsg
          rcases hone with h | h | h <;> simp [h]
        rw [if_neg hnet, augOuterCatch_transient _ _ _ htm]
        exact ⟨⟨e, rfl⟩, rfl⟩
  have hred : processVideoAugmentation env cf = processAfterDurationGate env cf := by
    have step : ∀ cf2 : CacheFileState, cf2 = .absent ∨ cf2 = .corrupt →
        processVideoAugmentation env cf2 =
          (match getVideoDuration env.durationRaw with
            | some d =>
              if d < 10 then
                ⟨.ok (AugRecord.skipTooShort d), .present (AugRecord.skipTooShort d),
                  [.probeDuration]⟩
              else processAfterDurationGate env cf2
            | none => processAfterDurationGate env cf2) := by
      intro cf2 h2
      rcases h2 with h | h <;> subst h <;> rfl
    rw [step cf hcf]
    cases hd : getVideoDuration env.durationRaw with
    | none => rfl
    | some d =>
      dsimp only
      rw [if_neg (by have := hdur d hd; omega)]
  rw [hred]
  refine ⟨key.1, key.2, fun env2 => ?_⟩
  rw [key.2]
  exact processVideoAugmentation_nonPresent_probes env2 .absent (Or.inl rfl)

/-- C4 witness: an expired-link extraction failure on an uncached key — the
call errors out, the cache stays absent, and the next call probes again. -/
theorem c4_transient_extraction_no_record_witness :
    (∃ e2, (processVideoAugmentation
      ⟨none, some expiredRethrowError, .error expiredRethrowError, .insufficient⟩
      .absent).result = .error e2) ∧
    (processVideoAugmentation
      ⟨none, some expiredRethrowError, .error expiredRethrowError, .insufficient⟩
      .absent).cacheFile = .absent ∧
    (∀ env2 : PipelineEnv,
      (processVideoAugmentation env2 (processVideoAugmentation
        ⟨none, some expiredRethrowError, .error expiredRethrowError, .insufficient⟩
        .absent).cacheFile).calls.headD .blogify = .probeDuration) :=
  c4_transient_extraction_no_record
    ⟨none, some expiredRethrowError, .error expiredRethrowError, .insufficient⟩
    .absent expiredRethrowError (Or.inl rfl)
    (fun d hd => by simp [getVideoDuration] at hd)
    rfl rfl (Or.inl rfl)

/-- C6: when the probed duration is reliably determined and below 10 seconds,
the pipeline writes the terminal `skipped=true, reason="too_short"` record
and stops — the only collaborator invoked is the duration probe (no
extraction, transcription or summarization call); and when the duration
cannot be determined, processing continues to the extraction step instead of
skipping. -/
theorem c6_duration_gate (env : PipelineEnv) (cf : CacheFileState) (d : Nat)
    (hcf : cf = .absent ∨ cf = .corrupt)
    (hdur : getVideoDuration env.durationRaw = some d) (hlt : d < 10) :
    (processVideoAugmentation env cf).result = .ok (.skipTooShort d) ∧
    (processVideoAugmentation env cf).cacheFile = .present (.skipTooShort d) ∧
    (processVideoAugmentation env cf).calls = [.probeDuration] ∧
    augSkipped (.skipTooShort d) = true ∧
    augReason (.skipTooShort d) = some ("too_short") ∧
    (∀ env2 : PipelineEnv, getVideoDuration env2.durationRaw = none →
      Collaborator.extractAudio ∈ (processVideoAugmentation env2 .absent).calls) := by
  have hrun : processVideoAugmentation env cf =
      ⟨.ok (AugRecord.skipTooShort d), .present (AugRecord.skipTooShort d),
        [.probeDuration]⟩ := by
    have step : processVideoAugmentation env cf =
        (match getVideoDuration env.durationRaw with
          | some d2 =>
            if d2 < 10 then
              ⟨.ok (AugRecord.skipTooShort d2), .present (AugRecord.skipTooShort d2),
                [.probeDuration]⟩
            else processAfterDurationGate env cf
          | none => processAfterDurationGate env cf) := by
      rcases hcf with h | h <;> subst h <;> rfl
    rw [step, hdur]
    dsimp only
    rw [if_pos hlt]
  refine ⟨by rw [hrun], by rw [hrun], by rw [hrun], rfl, rfl, fun env2 hnone => ?_⟩
  have step2 : processVideoAugmentation env2 .absent =
      processAfterDurationGate env2 .absent := by
    show (match getVideoDuration env2.durationRaw with
      | some d2 =>
        if d2 < 10 then
          ⟨.ok (AugRecord.skipTooShort d2), .present (AugRecord.skipTooShort d2),
            [.probeDuration]⟩
        else processAfterDurationGate env2 .absent
      | none => processAfterDurationGate env2 .absent) =
      processAfterDurationGate env2 .absent
    rw [hnone]
  rw [step2]
  unfold processAfterDurationGate
  cases env2.extract with
  | some e =>
    dsimp only
    by_cases h1 : e.sigsegv = true
    · rw [if_pos h1]
      simp
    · rw [if_neg h1]
      by_cases h2 : e.expired = true
      · rw [if_pos h2]
        unfold augOuterCatch
        split <;> simp
      · rw [if_neg h2]
        by_cases h3 : e.hasCause = true ∧
          (e.causeETimedout = true ∨ e.fetchFailed = true ∨ e.timeoutStr = true)
        · rw [if_pos h3]
          unfold augOuterCatch
          split <;> simp
        · rw [if_neg h3]
          unfold augOuterCatch
          split <;> simp
  | none =>
    obtain ⟨t, ht⟩ := processAfterExtraction_calls env2 .absent
    rw [ht]
    simp

/-- C6 witness: a 5-second clip on an uncached key — the `too_short` record
is written, only the probe ran; with an undetermined duration, extraction is
reached. -/
theorem c6_duration_gate_witness :
    (processVideoAugmentation
      ⟨some 5, none, .error expiredRethrowError, .insufficient⟩ .absent).result =
      .ok (.skipTooShort 5) ∧
    (processVideoAugmentation
      ⟨some 5, none, .error expiredRethrowError, .insufficient⟩ .absent).cacheFile =
      .present (.skipTooShort 5) ∧
    (processVideoAugmentation
      ⟨some 5, none, .error expiredRethrowError, .insufficient⟩ .absent).calls =
      [.probeDuration] ∧
    augSkipped (.skipTooShort 5) = true ∧
    augReason (.skipTooShort 5) = some ("too_short") ∧
    (∀ env2 : PipelineEnv, getVideoDuration env2.durationRaw = none →
      Collaborator.extractAudio ∈ (processVideoAugmentation env2 .absent).calls) :=
  c6_duration_gate ⟨some 5, none, .error expiredRethrowError, .insufficient⟩
    .absent 5 (Or.inl rfl) (by simp [getVideoDuration]) (by decide)

/-! ## Whisper stdout parser (`transcribeAudio`, src/index.js 1119-1147 and src/unnamed/part_000 1643-1671)

The stdout handler accumulates `transcription`, `timestamps`, `points` and
`currentLength` over the lines of whisper's output.  A line contributes only
if it contains `[`, splits on `]` into at least two parts (parts beyond the
second are re-joined with `]`), and the re-joined remainder trims to a
nonempty word; the bracketed prefix (up to `-->`) is parsed as
`hh:mm:ss.mmm` with `parseInt`/`parseFloat` falling back to 0. -/

/-- One step of `line.split(sep)`, building parts right-to-left. -/
def splitOnCharStep (sep c : Char) (acc : List (List Char)) : List (List Char) :=
  match acc with
  | [] => if c = sep then [[], []] else [[c]]
  | w :: rest => if c = sep then [] :: w :: rest else (c :: w) :: rest

/-- Model of `line.split(sep)` (always at least one part, as in JS). -/
def splitOnChar (sep : Char) (s : List Char) : List (List Char) :=
  s.foldr (splitOnCharStep sep) [[]]

/-- Model of `parts.join(sep)`. -/
def joinSep (sep : Char) (ws : List (List Char)) : List Char :=
  (ws.intersperse [sep]).flatten

/-- Model of `s.replace(c, '')` for a single character pattern: remove the first
occurrence. -/
def removeFirstChar (c : Char) : List Char → List Char
  | [] => []
  | a :: as => if a = c then as else a :: removeFirstChar c as

/-- Model of `s.split(pat)[0]` for a multi-character separator: everything before the
first occurrence of `pat` (the whole string when `pat` does not occur). -/
def takeBeforeSeq (pat : List Char) : List Char → List Char
  | [] => []
  | c :: rest =>
    if (c :: rest).take pat.length = pat then []
    else c :: takeBeforeSeq pat rest

/-- Decimal value of a digit string. -/
def digitsToNat (ds : List Char) : Nat :=
  ds.foldl (fun n c => 10 * n + (c.toNat - '0'.toNat)) 0

/-- Model of `parseInt(s) || 0`: skip leading whitespace, optional sign, longest
decimal-digit prefix; no digits (`NaN`) falls back to 0.  (The hexadecimal
`0x` form accepted by `parseInt` cannot occur in whisper's `hh:mm:ss`
fields.) -/
def jsParseIntOrZero (s : List Char) : Int :=
  let t := s.dropWhile jsWs
  match t with
  | '-' :: rest =>
    let ds := rest.takeWhile Char.isDigit
    if ds = [] then 0 else -(digitsToNat ds : Int)
  | '+' :: rest =>
    let ds := rest.takeWhile Char.isDigit
    if ds = [] then 0 else (digitsToNat ds : Int)
  | _ =>
    let ds := t.takeWhile Char.isDigit
    if ds = [] then 0 else (digitsToNat ds : Int)

/-- Unsigned part of `parseFloat`: digits, optional `.` and fraction digits
(whisper's seconds field never carries an exponent). -/
def jsParseFloatUnsigned (r : List Char) : ℚ :=
  let ip := r.takeWhile Char.isDigit
  match r.drop ip.length with
  | '.' :: fr =>
    let fp := fr.takeWhile Char.isDigit
    if ip = [] ∧ fp = [] then 0
    else (digitsToNat ip : ℚ) + (digitsToNat fp : ℚ) / ((10 : ℚ) ^ fp.length)
  | _ => if ip = [] then 0 else (digitsToNat ip : ℚ)

/-- Model of `parseFloat(s) || 0`. -/
def jsParseFloatOrZero (s : List Char) : ℚ :=
  let t := s.dropWhile jsWs
  match t with
  | '-' :: rest => -(jsParseFloatUnsigned rest)
  | '+' :: rest => jsParseFloatUnsigned rest
  | _ => jsParseFloatUnsigned t

/-- Accumulator of the stdout handler: `transcription`, `timestamps`,
`points`, `currentLength`. -/
structure TranscribeState where
  transcription : List Char
  timestamps : List Int
  points : List Nat
  currentLength : Nat
deriving DecidableEq, Repr

/-- The word-start timestamp parsed from a line's bracketed prefix:
`Math.floor((hrs*3600 + mins*60 + secs) * 1000)` over
`parts[0].replace('[','').split('-->')[0].trim().split(':')`. -/
def lineMs (line : List Char) : Int :=
  match splitOnChar ']' line with
  | [] => 0
  | p0 :: _ =>
    let timeRaw := trimChars (takeBeforeSeq ['-', '-', '>'] (removeFirstChar '[' p0))
    let comps := splitOnChar ':' timeRaw
    let hrs := jsParseIntOrZero (comps.getD 0 [])
    let mins := jsParseIntOrZero (comps.getD 1 [])
    let secs := jsParseFloatOrZero (comps.getD 2 [])
    ⌊(((hrs * 3600 + mins * 60 : Int) : ℚ) + secs) * 1000⌋

/-- The word a line contributes, if any: the line must contain `[`, split on
`]` into ≥ 2 parts, and the tail parts re-joined with `]` must trim to a
nonempty word. -/
def transcribeLineWord (line : List Char) : Option (List Char) :=
  if '[' ∈ line then
    match splitOnChar ']' line with
    | [] => none
    | [_] => none
    | _ :: p1 :: rest =>
      let w := trimChars (joinSep ']' (p1 :: rest))
      if w = [] then none else some w
  else none

/-- One line of the stdout handler (src/unnamed/part_000 1645-1670). -/
def transcribeLineStep (st : TranscribeState) (line : List Char) : TranscribeState :=
  if '[' ∈ line then
    match splitOnChar ']' line with
    | [] => st
    | [_] => st
    | p0 :: p1 :: rest =>
      let timeRaw := trimChars (takeBeforeSeq ['-', '-', '>'] (removeFirstChar '[' p0))
      let word := trimChars (joinSep ']' (p1 :: rest))
      if word = [] then st
      else
        let comps := splitOnChar ':' timeRaw
        let hrs := jsParseIntOrZero (comps.getD 0 [])
        let mins := jsParseIntOrZero (comps.getD 1 [])
        let secs := jsParseFloatOrZero (comps.getD 2 [])
        let ms : Int := ⌊(((hrs * 3600 + mins * 60 : Int) : ℚ) + secs) * 1000⌋
        ⟨st.transcription ++ word ++ [' '], st.timestamps ++ [ms],
          st.points ++ [st.currentLength],
          (st.transcription ++ word ++ [' ']).length⟩
  else st

/-- The stdout handler over all emitted lines, from the initial empty
accumulator. -/
def transcribeAudioParse (lines : List (List Char)) : TranscribeState :=
  lines.foldl transcribeLineStep ⟨[], [], [], 0⟩

/-- The words contributed by a sequence of lines, in order. -/
def parsedWords (lines : List (List Char)) : List (List Char) :=
  lines.filterMap transcribeLineWord

/-- The transcript accumulated from a word sequence: each word followed by a
space. -/
def flatWords (ws : List (List Char)) : List Char :=
  (ws.map (fun w => w ++ [' '])).flatten

/-- Character offsets at which the words start inside `flatWords ws`. -/
def wordOffsets : List (List Char) → List Nat
  | [] => []
  | w :: rest => 0 :: (wordOffsets rest).map (fun n => n + (w.length + 1))

/-! ## Theorems: C10 -/

/-- Lemma: `flatWords` over a cons. -/
theorem flatWords_cons (w : List Char) (ws : List (List Char)) :
    flatWords (w :: ws) = (w ++ [' ']) ++ flatWords ws := by
  simp [flatWords]

/-- Lemma: `flatWords` over a snoc. -/
theorem flatWords_append (ws : List (List Char)) (w : List Char) :
    flatWords (ws ++ [w]) = flatWords ws ++ (w ++ [' ']) := by
  simp [flatWords]

/-- Appending a word appends its start offset — the length of the transcript
accumulated so far. -/
theorem wordOffsets_append (ws : List (List Char)) (w : List Char) :
    wordOffsets (ws ++ [w]) = wordOffsets ws ++ [(flatWords ws).length] := by
  induction ws with
  | nil => simp [wordOffsets, flatWords]
  | cons w0 ws ih =>
    show wordOffsets (w0 :: (ws ++ [w])) =
      wordOffsets (w0 :: ws) ++ [(flatWords (w0 :: ws)).length]
    rw [wordOffsets, wordOffsets, ih, List.map_append]
    simp [flatWords_cons]
    omega

/-- There is one offset per word. -/
theorem wordOffsets_length (ws : List (List Char)) :
    (wordOffsets ws).length = ws.length := by
  induction ws with
  | nil => rfl
  | cons w ws ih => simp [wordOffsets, ih]

/-- The offsets are nondecreasing. -/
theorem wordOffsets_sorted (ws : List (List Char)) :
    List.Sorted (· ≤ ·) (wordOffsets ws) := by
  induction ws with
  | nil => simp [wordOffsets]
  | cons w ws ih =>
    rw [wordOffsets]
    refine List.sorted_cons.mpr ⟨fun b _ => Nat.zero_le b, ?_⟩
    exact List.Pairwise.map _ (fun a b hab => by omega) ih

/-- Offset `i` is exactly where word `i` starts in the accumulated
transcript. -/
theorem flatWords_drop_take (ws : List (List Char)) (i : Nat) (h : i < ws.length) :
    ((flatWords ws).drop ((wordOffsets ws).getD i 0)).take (ws.getD i []).length
      = ws.getD i [] := by
  induction ws generalizing i with
  | nil => simp at h
  | cons w ws ih =>
    cases i with
    | zero =>
      rw [wordOffsets]
      simp only [List.getD_cons_zero, List.drop_zero]
      rw [flatWords_cons, List.append_assoc]
      exact List.take_left w ([' '] ++ flatWords ws)
    | succ j =>
      have hj : j < ws.length := by simpa using h
      rw [wordOffsets, List.getD_cons_succ, List.getD_cons_succ]
      have hmap : ((wordOffsets ws).map (fun n => n + (w.length + 1))).getD j 0
          = (wordOffsets ws).getD j 0 + (w.length + 1) := by
        rw [List.getD_eq_getElem?_getD, List.getElem?_map]
        have hsome : (wordOffsets ws)[j]? = some ((wordOffsets ws).getD j 0) := by
          rw [List.getD_eq_getElem?_getD]
          cases hq : (wordOffsets ws)[j]? with
          | none =>
            rw [List.getElem?_eq_none_iff, wordOffsets_length] at hq
            omega
          | some v => rfl
        rw [hsome]
        rfl
      rw [hmap, flatWords_cons]
      have hlen : w.length + 1 = (w ++ [' ']).length := by simp
      rw [Nat.add_comm ((wordOffsets ws).getD j 0) (w.length + 1), hlen,
        List.drop_append]
      exact ih j hj

/-- A parser step is: do nothing if the line yields no word, otherwise append
the word (plus a space), its timestamp, and the offset at which it begins. -/
theorem transcribeLineStep_eq (st : TranscribeState) (line : List Char) :
    transcribeLineStep st line =
      match transcribeLineWord line with
      | none => st
      | some w =>
        ⟨st.transcription ++ w ++ [' '], st.timestamps ++ [lineMs line],
          st.points ++ [st.currentLength],
          (st.transcription ++ w ++ [' ']).length⟩ := by
  unfold transcribeLineStep transcribeLineWord lineMs
  by_cases hb : '[' ∈ line
  · rw [if_pos hb, if_pos hb]
    cases hsp : splitOnChar ']' line with
    | nil => rfl
    | cons p0 tl =>
      cases tl with
      | nil => rfl
      | cons p1 rest =>
        dsimp only
        by_cases hw : trimChars (joinSep ']' (p1 :: rest)) = []
        · rw [if_pos hw, if_pos hw]
        · rw [if_neg hw, if_neg hw]
  · rw [if_neg hb, if_neg hb]

/-- Invariant tying the parser state to the words parsed so far. -/
def ParseInv (st : TranscribeState) (ws : List (List Char)) : Prop :=
  st.transcription = flatWords ws ∧ st.points = wordOffsets ws ∧
    st.timestamps.length = ws.length ∧ st.currentLength = (flatWords ws).length

/-- Folding the parser over any line list preserves the invariant. -/
theorem transcribeFold_inv (lines : List (List Char)) (st : TranscribeState)
    (ws : List (List Char)) (h : ParseInv st ws) :
    ParseInv (lines.foldl transcribeLineStep st) (ws ++ parsedWords lines) := by
  induction lines generalizing st ws with
  | nil => simpa [parsedWords] using h
  | cons line rest ih =>
    rw [List.foldl_cons, transcribeLineStep_eq]
    cases hw : transcribeLineWord line with
    | none =>
      have hp : parsedWords (line :: rest) = parsedWords rest := by
        simp [parsedWords, hw]
      rw [hp]
      exact ih st ws h
    | some w =>
      have hp : parsedWords (line :: rest) = w :: parsedWords rest := by
        simp [parsedWords, hw]
      rw [hp, show ws ++ w :: parsedWords rest = (ws ++ [w]) ++ parsedWords rest by simp]
      apply ih
      obtain ⟨h1, h2, h3, h4⟩ := h
      refine ⟨?_, ?_, ?_, ?_⟩
      · dsimp only
        rw [h1, flatWords_append]
        simp
      · dsimp only
        rw [h2, h4, wordOffsets_append]
      · dsimp only
        simp [h3]
      · dsimp only
        rw [h1, flatWords_append]
        simp

/-- C10: for every sequence of stdout lines, the parsed `timestamps` and
`points` arrays have the same length, equal to the number of parsed words;
`points` is exactly the list of character offsets at which the words begin in
the accumulated transcript (`points[0] = 0` once a word was parsed, `points`
is nondecreasing, and dropping `points[i]` characters of the transcript
exposes word `i`); and a line without a `[`, or without a word after `]`,
leaves the parser state — all three outputs — unchanged. -/
theorem c10_transcript_parser_invariants (lines : List (List Char)) :
    (transcribeAudioParse lines).timestamps.length = (parsedWords lines).length ∧
    (transcribeAudioParse lines).points.length = (parsedWords lines).length ∧
    (transcribeAudioParse lines).points = wordOffsets (parsedWords lines) ∧
    (transcribeAudioParse lines).transcription = flatWords (parsedWords lines) ∧
    (0 < (parsedWords lines).length →
      (transcribeAudioParse lines).points.getD 0 1 = 0) ∧
    List.Sorted (· ≤ ·) (transcribeAudioParse lines).points ∧
    (∀ i, i < (parsedWords lines).length →
      ((transcribeAudioParse lines).transcription.drop
          ((transcribeAudioParse lines).points.getD i 0)).take
        ((parsedWords lines).getD i []).length = (parsedWords lines).getD i []) ∧
    (∀ (st : TranscribeState) (line : List Char), transcribeLineWord line = none →
      transcribeLineStep st line = st) := by
  have hinv : ParseInv (transcribeAudioParse lines) (parsedWords lines) := by
    have hbase := transcribeFold_inv lines ⟨[], [], [], 0⟩ [] ⟨rfl, rfl, rfl, rfl⟩
    simpa [transcribeAudioParse] using hbase
  obtain ⟨h1, h2, h3, h4⟩ := hinv
  refine ⟨h3, ?_, h2, h1, ?_, ?_, ?_, ?_⟩
  · rw [h2, wordOffsets_length]
  · intro hpos
    rw [h2]
    cases hws : parsedWords lines with
    | nil => rw [hws] at hpos; simp at hpos
    | cons w rest => rw [wordOffsets]; rfl
  · rw [h2]
    exact wordOffsets_sorted _
  · intro i hi
    rw [h1, h2]
    exact flatWords_drop_take _ i hi
  · intro st line hw
    rw [transcribeLineStep_eq, hw]

/-- A sample of whisper stdout lines: two word lines, a line without `[`, a
line without `]`, and a line whose remainder trims to nothing. -/
def whisperDemoLines : List (List Char) :=
  ["[00:00:01.000 --> 00:00:01.500]  Hello".toList,
   "no brackets here".toList,
   "[00:00:01.500 --> 00:00:02.000]  world".toList,
   "[bad line".toList,
   "[00:00:02.000 --> 00:00:02.500]   ".toList]

/-- C10 witness: instantiation on the sample lines — `points[0] = 0`,
dropping `points[0]` characters exposes the first word, and the bracketless
line leaves the state untouched. -/
theorem c10_transcript_parser_invariants_witness :
    (transcribeAudioParse whisperDemoLines).points.getD 0 1 = 0 ∧
    ((transcribeAudioParse whisperDemoLines).transcription.drop
        ((transcribeAudioParse whisperDemoLines).points.getD 0 0)).take
      ((parsedWords whisperDemoLines).getD 0 []).length
      = (parsedWords whisperDemoLines).getD 0 [] ∧
    transcribeLineStep ⟨[], [], [], 0⟩ ("no brackets here".toList) = ⟨[], [], [], 0⟩ :=
  ⟨(c10_transcript_parser_invariants whisperDemoLines).2.2.2.2.1 (by decide),
   (c10_transcript_parser_invariants whisperDemoLines).2.2.2.2.2.2.1 0 (by decide),
   (c10_transcript_parser_invariants whisperDemoLines).2.2.2.2.2.2.2
     ⟨[], [], [], 0⟩ ("no brackets here".toList) (by decide)⟩
